import Mathlib

/-!
Verification of the goDipl2 loyalty-points backend against its specification.

The development shallowly embeds the Go source:
- floating-point balances and accrual points (float64 in Go) are modelled as
  rationals; the claims under study depend only on exact comparisons and on
  which writes happen, not on rounding;
- the persistent store (three gorm tables) is a record of three lists; gorm
  primary-key updates become id-keyed list replacement; transaction rollback
  restores the state at tx begin;
- the outcome of one HTTP call to the accrual service is an inductive value
  covering the cases distinguished by the source (network failure, 429 with a
  parsed or unparseable Retry-After header, 500, 204, bad JSON, decoded body);
- fallible store calls are driven by explicit fault flags so that the
  transactional claims can quantify over which store operation fails.
-/

namespace GoDipl2

/-- Users table row (db_models.go): email, password hash and running balance.
The gorm id is modelled explicitly; password is irrelevant to the claims. -/
structure User where
  id : Nat
  email : String
  balance : ℚ
deriving DecidableEq

/-- Orders table row (db_models.go): unique number, status (default NEW),
accrued points (default 0) and owning user id. -/
structure DbOrder where
  id : Nat
  number : String
  status : String
  points : ℚ
  userID : Nat
deriving DecidableEq

/-- Withdrawals table row (db_models.go). -/
structure Withdrawal where
  id : Nat
  points : ℚ
  userID : Nat
  number : String
deriving DecidableEq

/-- The persistent store: the three gorm tables. -/
structure DBState where
  users : List User
  orders : List DbOrder
  withdrawals : List Withdrawal
deriving DecidableEq

/-- dbconnector.GetUserByEmail: first user whose email matches. -/
def getUserByEmail (db : DBState) (email : String) : Option User :=
  db.users.find? (fun u => u.email == email)

/-- dbconnector.GetUserByUserID: lookup by primary key. -/
def getUserByUserID (db : DBState) (userID : Nat) : Option User :=
  db.users.find? (fun u => u.id == userID)

/-- dbconnector.GetOrderByNumber: first order whose number matches; the source
maps gorm.ErrRecordNotFound to a found=false result, so an Option is exact. -/
def getOrderByNumber (db : DBState) (orderNumber : String) : Option DbOrder :=
  db.orders.find? (fun o => o.number == orderNumber)

/-- Fresh primary key for an order Create (gorm assigns an unused id). -/
def freshOrderId (db : DBState) : Nat :=
  (db.orders.map DbOrder.id).foldr max 0 + 1

/-- Fresh primary key for a withdrawal Create. -/
def freshWithdrawalId (db : DBState) : Nat :=
  (db.withdrawals.map Withdrawal.id).foldr max 0 + 1

/-- dbconnector.AddOrder: gorm Create appends a row. -/
def addOrder (db : DBState) (o : DbOrder) : DBState :=
  { db with orders := db.orders ++ [o] }

/-- dbconnector.AddWithdrawal: gorm Create appends a row. -/
def addWithdrawal (db : DBState) (w : Withdrawal) : DBState :=
  { db with withdrawals := db.withdrawals ++ [w] }

/-- dbconnector.UpdateOrder: gorm Save replaces the row with the same id. -/
def updateOrder (db : DBState) (o : DbOrder) : DBState :=
  { db with orders := db.orders.map (fun x => if x.id = o.id then o else x) }

/-- dbconnector.UpdateUser: gorm Save replaces the row with the same id. -/
def updateUser (db : DBState) (u : User) : DBState :=
  { db with users := db.users.map (fun x => if x.id = u.id then u else x) }

/-- dbconnector.GetWaitingOrders: WHERE status = REGISTERED OR PROCESSING
OR NEW (dbconnector.go line 88). -/
def getWaitingOrders (db : DBState) : List DbOrder :=
  db.orders.filter
    (fun o => o.status == "REGISTERED" || o.status == "PROCESSING" || o.status == "NEW")

/-! ## Luhn checksum validator (logic.go IsValidLuhn) -/

/-- The loop body of IsValidLuhn: walk the characters with index i, rejecting
any non-digit (strconv.Atoi on a single character succeeds only on a digit),
doubling at indices with i % 2 = parity and subtracting 9 above 9, and summing.
none models the early return false on a non-digit. -/
def luhnSum (parity : Nat) : Nat → List Char → Option Nat
  | _, [] => some 0
  | i, c :: rest =>
    if c.isDigit then
      let digit0 := c.toNat - 48
      let digit :=
        if i % 2 = parity then
          if digit0 * 2 > 9 then digit0 * 2 - 9 else digit0 * 2
        else digit0
      match luhnSum parity (i + 1) rest with
      | none => none
      | some s => some (digit + s)
    else none

/-- IsValidLuhn (logic.go lines 61-79): parity is length mod 2; the digit sum
must be divisible by 10. -/
def isValidLuhn (number : String) : Bool :=
  let chars := number.toList
  let digits := chars.length
  let parity := digits % 2
  match luhnSum parity 0 chars with
  | none => false
  | some s => s % 10 == 0

/-- The specification's transform: the digit at index i of a string of length n
is doubled exactly when its distance from the end, n - i, is even
(second-to-last, fourth-to-last, ...), subtracting 9 when the double exceeds 9. -/
def luhnSpecDigit (n i d : Nat) : Nat :=
  if (n - i) % 2 = 0 then
    if d * 2 > 9 then d * 2 - 9 else d * 2
  else d

/-- The specification's sum, written with the distance-from-the-end rule;
none when some character is not a decimal digit. -/
def luhnSpecSum (n : Nat) : Nat → List Char → Option Nat
  | _, [] => some 0
  | i, c :: rest =>
    if c.isDigit then
      match luhnSpecSum n (i + 1) rest with
      | none => none
      | some s => some (luhnSpecDigit n i (c.toNat - 48) + s)
    else none

/-- The checksum test as the specification words it: every character is a
decimal digit and the transformed digit sum is divisible by 10. -/
def luhnSpecValid (number : String) : Bool :=
  let chars := number.toList
  match luhnSpecSum chars.length 0 chars with
  | none => false
  | some s => s % 10 == 0

theorem luhnSum_eq_spec (n : Nat) :
    ∀ (cs : List Char) (i : Nat), i + cs.length = n →
      luhnSum (n % 2) i cs = luhnSpecSum n i cs := by
  intro cs
  induction cs with
  | nil => intro i _; rfl
  | cons c rest ih =>
    intro i hi
    have hlen : i + rest.length + 1 = n := by
      simpa [Nat.add_comm, Nat.add_assoc] using hi
    simp only [luhnSum, luhnSpecSum, luhnSpecDigit]
    have hcond : (i % 2 = n % 2) ↔ ((n - i) % 2 = 0) := by
      constructor <;> intro h <;> omega
    by_cases hd : c.isDigit
    · simp only [hd, if_true]
      rw [ih (i + 1) (by omega)]
      by_cases hp : i % 2 = n % 2
      · rw [if_pos hp, if_pos (hcond.mp hp)]
      · rw [if_neg hp, if_neg (fun h => hp (hcond.mpr h))]
    · simp [hd]

/-! ## Accrual client and reconciliation pass (server_utils.go) -/

/-- Outcome of one HTTP call to the accrual service, as distinguished by
fetchOrderInfo: request/network failure; 429 where retryAfter is the parsed
Retry-After header (none when the header is absent or strconv.Atoi fails);
500; 204; undecodable body; or a decoded AccrualResponse body. -/
inductive FetchResult where
  | reqError : FetchResult
  | tooManyRequests : Option Nat → FetchResult
  | internalServerError : FetchResult
  | noContent : FetchResult
  | badJSON : FetchResult
  | ok : String → ℚ → FetchResult
deriving DecidableEq

/-- Fault flags for the store calls made inside fetchOrderInfo, so the claims
can quantify over which store operation fails. -/
structure StoreFaults where
  updateOrderFails : Bool
  getUserFails : Bool
  updateUserFails : Bool
deriving DecidableEq

/-- All store calls succeed. -/
def noFaults : StoreFaults := ⟨false, false, false⟩

/-- fetchOrderInfo (server_utils.go lines 38-124): returns the updated store,
the wait in whole seconds to use for the next tick, and whether an error was
returned. On a decoded body it sets status and points on the order verbatim,
saves the order, and when accrual > 0 reads the owning user and saves the user
with the balance incremented. The two saves are separate store calls, not a
transaction. -/
def fetchOrderInfo (db : DBState) (ord : DbOrder) (resp : FetchResult)
    (faults : StoreFaults) (defTimeToReturn : Nat) : DBState × Nat × Bool :=
  match resp with
  | .reqError => (db, defTimeToReturn, true)
  | .tooManyRequests none => (db, defTimeToReturn, true)
  | .tooManyRequests (some retryAfterSeconds) => (db, retryAfterSeconds, true)
  | .internalServerError => (db, defTimeToReturn, true)
  | .noContent => (db, defTimeToReturn, true)
  | .badJSON => (db, defTimeToReturn, true)
  | .ok status accrual =>
    let ord1 : DbOrder := { ord with status := status, points := accrual }
    if faults.updateOrderFails then (db, defTimeToReturn, true)
    else
      let db1 := updateOrder db ord1
      if accrual > 0 then
        if faults.getUserFails then (db1, defTimeToReturn, true)
        else
          match getUserByUserID db1 ord.userID with
          | none => (db1, defTimeToReturn, true)
          | some user =>
            if faults.updateUserFails then (db1, defTimeToReturn, true)
            else
              (updateUser db1 { user with balance := user.balance + accrual },
                defTimeToReturn, false)
      else (db1, defTimeToReturn, false)

/-- The wait fetchOrderInfo reports for a given response: the parsed
Retry-After value on a 429, the default otherwise. -/
def fetchWait (resp : FetchResult) (defTimeToReturn : Nat) : Nat :=
  match resp with
  | .tooManyRequests (some retryAfterSeconds) => retryAfterSeconds
  | _ => defTimeToReturn

/-- The loop of processOrders (server_utils.go lines 135-148): fetch each
order of the pass in sequence; as soon as a step reports a wait different from
the default, return that wait immediately, skipping the remaining orders; a
step error alone does not stop the pass. resp i and faults i drive the i-th
iteration. -/
def processOrdersLoop (db : DBState) (ords : List DbOrder)
    (resp : Nat → FetchResult) (faults : Nat → StoreFaults) (i : Nat)
    (defTimeToReturn : Nat) : DBState × Nat :=
  match ords with
  | [] => (db, defTimeToReturn)
  | ord :: rest =>
    let step := fetchOrderInfo db ord (resp i) (faults i) defTimeToReturn
    if step.2.1 ≠ defTimeToReturn then (step.1, step.2.1)
    else processOrdersLoop step.1 rest resp faults (i + 1) defTimeToReturn

/-- processOrders (server_utils.go lines 126-151): when fetching the waiting
list fails the whole pass is skipped and the default wait returned; otherwise
the loop runs over the waiting orders. The returned Nat is the wait in whole
seconds that MakeGorutineToCheckOrdersByTimer resets the ticker to. -/
def processOrders (db : DBState) (listFetchFails : Bool)
    (resp : Nat → FetchResult) (faults : Nat → StoreFaults)
    (defTimeToReturn : Nat) : DBState × Nat :=
  if listFetchFails then (db, defTimeToReturn)
  else processOrdersLoop db (getWaitingOrders db) resp faults 0 defTimeToReturn

/-- The default wait of MakeGorutineToCheckOrdersByTimer
(server_utils.go line 155). -/
def defTimeToReturn : Nat := 3

/-- State reached after fetching a given list of orders in sequence without an
early return: the fold of fetchOrderInfo over the list. Used to describe where
the loop stops. -/
def runSteps (db : DBState) (ords : List DbOrder) (resp : Nat → FetchResult)
    (faults : Nat → StoreFaults) (i : Nat) : DBState :=
  match ords with
  | [] => db
  | ord :: rest =>
    runSteps (fetchOrderInfo db ord (resp i) (faults i) defTimeToReturn).1
      rest resp faults (i + 1)

/-! ## Withdrawal (dbconnector WithdrawalTransaction, logic.go WithdrawLogic) -/

/-- Errors surfaced by the withdrawal path. -/
inductive TxError where
  | storeError : TxError
  | insufficientFunds : TxError
deriving DecidableEq

/-- Fault flags for the store calls inside WithdrawalTransaction. -/
structure WithdrawFaults where
  findUserFails : Bool
  createOrderFails : Bool
  createWithdrawalFails : Bool
  saveUserFails : Bool
deriving DecidableEq

/-- All transaction store calls succeed. -/
def noWithdrawFaults : WithdrawFaults := ⟨false, false, false, false⟩

/-- WithdrawalTransaction (dbconnector, part_004 lines 93-130): inside one
transaction, re-read the user by email; when the balance is below the
requested sum, stop with the insufficient-funds error having written nothing;
otherwise create the order, create the withdrawal and save the user with the
decremented balance, rolling everything back (the state at tx begin) when any
step fails. -/
def withdrawalTransaction (db : DBState) (order : DbOrder)
    (withdrawal : Withdrawal) (userEmail : String) (requestedSum : ℚ)
    (faults : WithdrawFaults) : DBState × Option TxError :=
  if faults.findUserFails then (db, some .storeError)
  else
    match getUserByEmail db userEmail with
    | none => (db, some .storeError)
    | some user =>
      if user.balance < requestedSum then (db, some .insufficientFunds)
      else
        if faults.createOrderFails then (db, some .storeError)
        else
          let db1 := addOrder db order
          if faults.createWithdrawalFails then (db, some .storeError)
          else
            let db2 := addWithdrawal db1 withdrawal
            if faults.saveUserFails then (db, some .storeError)
            else
              (updateUser db2 { user with balance := user.balance - requestedSum },
                none)

/-- The JSON body of a withdrawal request (models.WithdrawRequest). -/
structure WithdrawRequest where
  order : String
  sum : ℚ
deriving DecidableEq

/-- LogicSystem.WithdrawLogic (logic.go lines 81-106): build the
withdrawal-settling order (status PROCESSED) and the withdrawal record, run
WithdrawalTransaction, and map the insufficient-funds error to HTTP 402; every
other error keeps HTTP 500 (the handler only uses the code when err is not
nil). -/
def withdrawLogic (db : DBState) (userID : Nat) (userEmail : String)
    (req : WithdrawRequest) (faults : WithdrawFaults) :
    DBState × Nat × Option TxError :=
  let order : DbOrder :=
    { id := freshOrderId db, number := req.order, status := "PROCESSED",
      points := 0, userID := userID }
  let withdrawal : Withdrawal :=
    { id := freshWithdrawalId db, points := req.sum, userID := userID,
      number := req.order }
  let r := withdrawalTransaction db order withdrawal userEmail req.sum faults
  match r.2 with
  | some .insufficientFunds => (r.1, 402, r.2)
  | _ => (r.1, 500, r.2)

/-- The store state after a fully committed withdrawal: the three writes of
WithdrawalTransaction applied to the state at tx begin. -/
def withdrawCommitted (db : DBState) (userID : Nat) (userEmail : String)
    (req : WithdrawRequest) : DBState :=
  match getUserByEmail db userEmail with
  | none => db
  | some user =>
    updateUser
      (addWithdrawal
        (addOrder db
          { id := freshOrderId db, number := req.order, status := "PROCESSED",
            points := 0, userID := userID })
        { id := freshWithdrawalId db, points := req.sum, userID := userID,
          number := req.order })
      { user with balance := user.balance - req.sum }

/-! ## Order intake (logic.go LoadOrderLogic, server.go LoadOrderHandler) -/

/-- Errors of LoadOrderLogic (internal/errors/errors.go). -/
inductive LoadOrderError where
  | invalidOrderNumber : LoadOrderError
  | alreadyHaveOrder : LoadOrderError
  | alreadyHaveOrderForOtherUser : LoadOrderError
deriving DecidableEq

/-- LogicSystem.LoadOrderLogic (logic.go lines 175-210): reject a number that
fails the Luhn test; report a duplicate for the same or another user without
writing; otherwise create one order owned by the caller whose status is the
gorm column default NEW (the Go literal leaves Status unset and db_models.go
declares default 'NEW'). -/
def loadOrderLogic (db : DBState) (userID : Nat) (orderNumber : String) :
    DBState × Option LoadOrderError :=
  if ¬ isValidLuhn orderNumber then (db, some .invalidOrderNumber)
  else
    match getOrderByNumber db orderNumber with
    | some existingOrder =>
      if existingOrder.userID = userID then (db, some .alreadyHaveOrder)
      else (db, some .alreadyHaveOrderForOtherUser)
    | none =>
      (addOrder db
        { id := freshOrderId db, number := orderNumber, status := "NEW",
          points := 0, userID := userID }, none)

/-- ServerSystem.LoadOrderHandler (server.go lines 101-142): the HTTP status
written for each LoadOrderLogic outcome (422 / 200 / 409 / 202). -/
def loadOrderHandler (db : DBState) (userID : Nat) (orderNumber : String) :
    DBState × Nat :=
  let r := loadOrderLogic db userID orderNumber
  match r.2 with
  | some .invalidOrderNumber => (r.1, 422)
  | some .alreadyHaveOrder => (r.1, 200)
  | some .alreadyHaveOrderForOtherUser => (r.1, 409)
  | none => (r.1, 202)

/-! ## Concrete fixtures used by witnesses and counterexamples -/

/-- A user with id 1 and zero balance. -/
def alice : User := ⟨1, "alice", 0⟩

/-- A NEW order owned by alice. -/
def orderA : DbOrder := ⟨1, "3182649", "NEW", 0, 1⟩

/-- A second NEW order owned by alice. -/
def orderB : DbOrder := ⟨2, "11111115", "NEW", 0, 1⟩

/-- Store with one user and one waiting order. -/
def dbOne : DBState := ⟨[alice], [orderA], []⟩

/-- Store with one user and two waiting orders. -/
def dbTwo : DBState := ⟨[alice], [orderA, orderB], []⟩

/-! ## Helper lemmas -/

theorem luhnSum_none_of_nondigit (parity : Nat) :
    ∀ (cs : List Char) (i : Nat), (∃ c ∈ cs, ¬ c.isDigit) →
      luhnSum parity i cs = none := by
  intro cs
  induction cs with
  | nil => intro i h; rcases h with ⟨c, hc, _⟩; cases hc
  | cons c rest ih =>
    intro i h
    by_cases hd : c.isDigit
    · rcases h with ⟨c0, hc0, hc0d⟩
      rcases List.mem_cons.mp hc0 with rfl | hmem
      · exact absurd hd hc0d
      · simp only [luhnSum, hd, if_true]
        rw [ih (i + 1) ⟨c0, hmem, hc0d⟩]
    · simp [luhnSum, hd]

theorem fetchOrderInfo_wait (db : DBState) (ord : DbOrder) (resp : FetchResult)
    (faults : StoreFaults) (d : Nat) :
    (fetchOrderInfo db ord resp faults d).2.1 = fetchWait resp d := by
  cases resp with
  | reqError => rfl
  | tooManyRequests ra => cases ra <;> rfl
  | internalServerError => rfl
  | noContent => rfl
  | badJSON => rfl
  | ok status accrual =>
    simp only [fetchOrderInfo, fetchWait]
    by_cases h1 : faults.updateOrderFails
    · simp [h1]
    · simp only [h1, if_false]
      by_cases h2 : (0 : ℚ) < accrual
      · simp only [gt_iff_lt, h2, if_true]
        by_cases h3 : faults.getUserFails
        · simp [h3]
        · simp only [h3, if_false]
          cases getUserByUserID (updateOrder db _) ord.userID with
          | none => rfl
          | some user =>
            by_cases h4 : faults.updateUserFails
            · simp [h4]
            · simp [h4]
      · simp [gt_iff_lt, h2]

theorem updateOrder_users (db : DBState) (o : DbOrder) :
    (updateOrder db o).users = db.users := rfl

theorem updateUser_orders (db : DBState) (u : User) :
    (updateUser db u).orders = db.orders := rfl

theorem fetchOrderInfo_orders_map_id (db : DBState) (ord : DbOrder)
    (resp : FetchResult) (faults : StoreFaults) (d : Nat) :
    (fetchOrderInfo db ord resp faults d).1.orders.map DbOrder.id =
      db.orders.map DbOrder.id := by
  have hupd : ∀ ord1 : DbOrder, ord1.id = ord.id →
      (updateOrder db ord1).orders.map DbOrder.id = db.orders.map DbOrder.id := by
    intro ord1 h1
    simp only [updateOrder, List.map_map]
    apply List.map_congr_left
    intro x _
    by_cases hx : x.id = ord1.id
    · simp [hx, h1]
    · simp [hx]
  cases resp with
  | reqError => rfl
  | tooManyRequests ra => cases ra <;> rfl
  | internalServerError => rfl
  | noContent => rfl
  | badJSON => rfl
  | ok status accrual =>
    simp only [fetchOrderInfo]
    by_cases h1 : faults.updateOrderFails
    · simp [h1]
    · simp only [h1, if_false]
      by_cases h2 : (0 : ℚ) < accrual
      · simp only [gt_iff_lt, h2, if_true]
        by_cases h3 : faults.getUserFails
        · simp only [h3, if_true]
          exact hupd _ rfl
        · simp only [h3, if_false]
          cases getUserByUserID (updateOrder db _) ord.userID with
          | none => exact hupd _ rfl
          | some user =>
            by_cases h4 : faults.updateUserFails
            · simp only [h4, if_true]
              exact hupd _ rfl
            · simp only [h4, if_false, updateUser_orders]
              exact hupd _ rfl
      · simp only [gt_iff_lt, h2, if_false]
        exact hupd _ rfl

theorem fetchOrderInfo_orders_mem (db : DBState) (ord : DbOrder)
    (resp : FetchResult) (faults : StoreFaults) (d : Nat) (o : DbOrder)
    (hmem : o ∈ db.orders) (hid : o.id ≠ ord.id) :
    o ∈ (fetchOrderInfo db ord resp faults d).1.orders := by
  have hupd : ∀ ord1 : DbOrder, ord1.id = ord.id → o ∈ (updateOrder db ord1).orders := by
    intro ord1 h1
    simp only [updateOrder]
    have : (fun x => if x.id = ord1.id then ord1 else x) o = o := by
      simp [h1, hid]
    rw [← this]
    exact List.mem_map_of_mem _ hmem
  cases resp with
  | reqError => exact hmem
  | tooManyRequests ra => cases ra <;> exact hmem
  | internalServerError => exact hmem
  | noContent => exact hmem
  | badJSON => exact hmem
  | ok status accrual =>
    simp only [fetchOrderInfo]
    by_cases h1 : faults.updateOrderFails
    · simp only [h1, if_true]; exact hmem
    · simp only [h1, if_false]
      by_cases h2 : (0 : ℚ) < accrual
      · simp only [gt_iff_lt, h2, if_true]
        by_cases h3 : faults.getUserFails
        · simp only [h3, if_true]; exact hupd _ rfl
        · simp only [h3, if_false]
          cases getUserByUserID (updateOrder db _) ord.userID with
          | none => exact hupd _ rfl
          | some user =>
            by_cases h4 : faults.updateUserFails
            · simp only [h4, if_true]; exact hupd _ rfl
            · simp only [h4, if_false, updateUser_orders]; exact hupd _ rfl
      · simp only [gt_iff_lt, h2, if_false]
        exact hupd _ rfl

theorem runSteps_preserves (resp : Nat → FetchResult) (faults : Nat → StoreFaults) :
    ∀ (L : List DbOrder) (db : DBState) (i : Nat) (o : DbOrder),
      o ∈ db.orders → o.id ∉ L.map DbOrder.id →
      o ∈ (runSteps db L resp faults i).orders := by
  intro L
  induction L with
  | nil => intro db i o hmem _; exact hmem
  | cons ord rest ih =>
    intro db i o hmem hid
    simp only [List.map_cons, List.mem_cons, not_or] at hid
    simp only [runSteps]
    exact ih _ (i + 1) o
      (fetchOrderInfo_orders_mem db ord (resp i) (faults i) defTimeToReturn o hmem hid.1)
      hid.2

theorem runSteps_orders_map_id (resp : Nat → FetchResult) (faults : Nat → StoreFaults) :
    ∀ (L : List DbOrder) (db : DBState) (i : Nat),
      (runSteps db L resp faults i).orders.map DbOrder.id =
        db.orders.map DbOrder.id := by
  intro L
  induction L with
  | nil => intro db i; rfl
  | cons ord rest ih =>
    intro db i
    simp only [runSteps]
    rw [ih _ (i + 1), fetchOrderInfo_orders_map_id]

theorem processOrdersLoop_all_default (resp : Nat → FetchResult)
    (faults : Nat → StoreFaults) :
    ∀ (L : List DbOrder) (db : DBState) (i : Nat),
      (∀ j, j < L.length → fetchWait (resp (i + j)) defTimeToReturn = defTimeToReturn) →
      processOrdersLoop db L resp faults i defTimeToReturn =
        (runSteps db L resp faults i, defTimeToReturn) := by
  intro L
  induction L with
  | nil => intro db i _; rfl
  | cons ord rest ih =>
    intro db i h
    have h0 : fetchWait (resp i) defTimeToReturn = defTimeToReturn := by
      simpa using h 0 (by simp)
    simp only [processOrdersLoop, runSteps]
    rw [fetchOrderInfo_wait, h0]
    simp only [ne_eq, not_true_eq_false, if_false]
    exact ih _ (i + 1) (fun j hj => by
      have := h (j + 1) (by simpa using Nat.succ_lt_succ hj)
      simpa [Nat.add_assoc, Nat.add_comm 1 j] using this)

theorem processOrdersLoop_abort (resp : Nat → FetchResult)
    (faults : Nat → StoreFaults) :
    ∀ (L : List DbOrder) (k : Nat) (db : DBState) (i : Nat) (w : Nat),
      k < L.length →
      (∀ j, j < k → fetchWait (resp (i + j)) defTimeToReturn = defTimeToReturn) →
      resp (i + k) = FetchResult.tooManyRequests (some w) →
      w ≠ defTimeToReturn →
      processOrdersLoop db L resp faults i defTimeToReturn =
        (runSteps db (L.take k) resp faults i, w) := by
  intro L
  induction L with
  | nil => intro k db i w hk; exact absurd hk (by simp)
  | cons ord rest ih =>
    intro k db i w hk hpre hresp hw
    cases k with
    | zero =>
      simp only [Nat.add_zero] at hresp
      simp only [processOrdersLoop, hresp, fetchOrderInfo, List.take_zero, runSteps]
      simp [hw]
    | succ k0 =>
      have h0 : fetchWait (resp i) defTimeToReturn = defTimeToReturn := by
        simpa using hpre 0 (Nat.succ_pos k0)
      simp only [processOrdersLoop, List.take_succ_cons, runSteps]
      rw [fetchOrderInfo_wait, h0]
      simp only [ne_eq, not_true_eq_false, if_false]
      refine ih k0 _ (i + 1) w (by simpa using Nat.lt_of_succ_lt_succ hk)
        (fun j hj => by
          have := hpre (j + 1) (Nat.succ_lt_succ hj)
          simpa [Nat.add_assoc, Nat.add_comm 1 j] using this)
        (by simpa [Nat.add_assoc, Nat.add_comm 1 k0] using hresp) hw

theorem processOrdersLoop_state_take (resp : Nat → FetchResult)
    (faults : Nat → StoreFaults) :
    ∀ (L : List DbOrder) (db : DBState) (i : Nat),
      ∃ m, (processOrdersLoop db L resp faults i defTimeToReturn).1 =
        runSteps db (L.take m) resp faults i := by
  intro L
  induction L with
  | nil => intro db i; exact ⟨0, rfl⟩
  | cons ord rest ih =>
    intro db i
    simp only [processOrdersLoop]
    by_cases h : (fetchOrderInfo db ord (resp i) (faults i) defTimeToReturn).2.1 ≠
        defTimeToReturn
    · refine ⟨1, ?_⟩
      simp [h, runSteps]
    · rcases ih (fetchOrderInfo db ord (resp i) (faults i) defTimeToReturn).1 (i + 1)
        with ⟨m, hm⟩
      refine ⟨m + 1, ?_⟩
      simp [h, runSteps, hm]

theorem processOrders_preserves (db : DBState) (lff : Bool)
    (resp : Nat → FetchResult) (faults : Nat → StoreFaults) (o : DbOrder)
    (hmem : o ∈ db.orders)
    (hid : o.id ∉ (getWaitingOrders db).map DbOrder.id) :
    o ∈ (processOrders db lff resp faults defTimeToReturn).1.orders := by
  cases lff with
  | true => exact hmem
  | false =>
    simp only [processOrders, Bool.false_eq_true, if_false]
    rcases processOrdersLoop_state_take resp faults (getWaitingOrders db) db 0
      with ⟨m, hm⟩
    rw [hm]
    refine runSteps_preserves resp faults _ db 0 o hmem (fun hmemid => hid ?_)
    have : ((getWaitingOrders db).take m).map DbOrder.id ⊆
        (getWaitingOrders db).map DbOrder.id := by
      intro x hx
      exact List.map_subset _ (List.take_subset m _) hx
    exact this hmemid

theorem processOrders_orders_map_id (db : DBState) (lff : Bool)
    (resp : Nat → FetchResult) (faults : Nat → StoreFaults) :
    (processOrders db lff resp faults defTimeToReturn).1.orders.map DbOrder.id =
      db.orders.map DbOrder.id := by
  cases lff with
  | true => rfl
  | false =>
    simp only [processOrders, Bool.false_eq_true, if_false]
    rcases processOrdersLoop_state_take resp faults (getWaitingOrders db) db 0
      with ⟨m, hm⟩
    rw [hm, runSteps_orders_map_id]

theorem terminal_id_not_waiting (db : DBState) (o : DbOrder)
    (hnd : (db.orders.map DbOrder.id).Nodup) (hmem : o ∈ db.orders)
    (hp : (o.status == "REGISTERED" || o.status == "PROCESSING" ||
      o.status == "NEW") = false) :
    o.id ∉ (getWaitingOrders db).map DbOrder.id := by
  intro hin
  rcases List.mem_map.mp hin with ⟨o', ho'mem, ho'id⟩
  have ho'filter := List.mem_filter.mp ho'mem
  have hinj := List.inj_on_of_nodup_map hnd
  have : o' = o := hinj ho'filter.1 hmem ho'id
  rw [this] at ho'filter
  rw [hp] at ho'filter
  exact Bool.false_ne_true ho'filter.2

/-- A terminal order used by the C5 witness. -/
def orderDone : DbOrder := ⟨3, "9278923470", "PROCESSED", 500, 1⟩

/-- Store holding a waiting order and a terminal order. -/
def dbDone : DBState := ⟨[alice], [orderA, orderDone], []⟩

/-! ## Claim theorems -/

/-- C6: IsValidLuhn returns true exactly when every character is a decimal
digit and the digit sum, after doubling the digits at an even distance from
the end of the string and subtracting 9 above 9, is divisible by 10; in
particular it accepts 3182649, rejects 11111111, and rejects any string
containing a non-digit character. -/
theorem C6_luhn_correct :
    (∀ number : String, isValidLuhn number = luhnSpecValid number) ∧
    isValidLuhn "3182649" = true ∧
    isValidLuhn "11111111" = false ∧
    (∀ number : String, (∃ c ∈ number.toList, ¬ c.isDigit) →
      isValidLuhn number = false) := by
  refine ⟨?_, by decide, by decide, ?_⟩
  · intro number
    simp only [isValidLuhn, luhnSpecValid]
    rw [luhnSum_eq_spec number.toList.length number.toList 0 (by simp)]
  · intro number h
    simp only [isValidLuhn]
    rw [luhnSum_none_of_nondigit _ number.toList 0 h]

theorem C6_luhn_correct_witness :
    isValidLuhn "12a4" = false ∧ isValidLuhn "3182649" = luhnSpecValid "3182649" :=
  ⟨C6_luhn_correct.2.2.2 "12a4" ⟨'a', by decide, by decide⟩,
    C6_luhn_correct.1 "3182649"⟩

/-- C10: the empty string passes IsValidLuhn (the loop never runs, the sum is
0, and 0 mod 10 is 0), so LoadOrderLogic on an empty body does not reject it
as an invalid number but goes straight on to the duplicate check and, when no
order with the empty number exists, creates one. -/
theorem C10_empty_passes (db : DBState) (uid : Nat) :
    isValidLuhn "" = true ∧
    loadOrderLogic db uid "" =
      (match getOrderByNumber db "" with
       | some o =>
         (db, some (if o.userID = uid then LoadOrderError.alreadyHaveOrder
                    else LoadOrderError.alreadyHaveOrderForOtherUser))
       | none =>
         (addOrder db
           { id := freshOrderId db, number := "", status := "NEW", points := 0,
             userID := uid }, none)) := by
  refine ⟨by decide, ?_⟩
  have hl : isValidLuhn "" = true := by decide
  simp only [loadOrderLogic, hl, not_true_eq_false, if_false]
  cases h : getOrderByNumber db "" with
  | some o => by_cases ho : o.userID = uid <;> simp [ho]
  | none => rfl

/-- C8: the scheduler default interval is 3 seconds; a failure fetching the
waiting list skips the pass and returns the default wait; and a pass in which
no step reports a wait different from the default (no rate-limit abort) visits
every waiting order and returns the default wait. -/
theorem C8_default_schedule (db : DBState) (resp : Nat → FetchResult)
    (faults : Nat → StoreFaults) :
    defTimeToReturn = 3 ∧
    processOrders db true resp faults defTimeToReturn = (db, 3) ∧
    ((∀ j, j < (getWaitingOrders db).length →
        fetchWait (resp j) defTimeToReturn = defTimeToReturn) →
      processOrders db false resp faults defTimeToReturn =
        (runSteps db (getWaitingOrders db) resp faults 0, 3)) := by
  refine ⟨rfl, rfl, fun h => ?_⟩
  simp only [processOrders, Bool.false_eq_true, if_false]
  exact processOrdersLoop_all_default resp faults _ db 0 (by simpa using h)

theorem C8_default_schedule_witness :
    processOrders dbOne false (fun _ => FetchResult.noContent)
        (fun _ => noFaults) defTimeToReturn =
      (runSteps dbOne (getWaitingOrders dbOne) (fun _ => FetchResult.noContent)
        (fun _ => noFaults) 0, 3) :=
  (C8_default_schedule dbOne (fun _ => FetchResult.noContent)
    (fun _ => noFaults)).2.2 (by decide)

/-- C9: the rate-limit signal is detected only through the returned wait
differing from the default, so a 429 whose Retry-After equals the default
3 seconds, or whose Retry-After header is missing or non-numeric, does not
abort the pass: every remaining order is still polled and the next tick uses
the default interval. -/
theorem C9_retry_after_default_lost (db : DBState) (resp : Nat → FetchResult)
    (faults : Nat → StoreFaults)
    (h : ∀ j, j < (getWaitingOrders db).length → ∀ ra,
      resp j = FetchResult.tooManyRequests ra →
      ra = some defTimeToReturn ∨ ra = none) :
    processOrders db false resp faults defTimeToReturn =
      (runSteps db (getWaitingOrders db) resp faults 0, defTimeToReturn) := by
  simp only [processOrders, Bool.false_eq_true, if_false]
  refine processOrdersLoop_all_default resp faults _ db 0 (fun j hj => ?_)
  simp only [Nat.zero_add]
  cases hr : resp j with
  | reqError => rfl
  | internalServerError => rfl
  | noContent => rfl
  | badJSON => rfl
  | ok status accrual => rfl
  | tooManyRequests ra =>
    rcases h j hj ra hr with h1 | h1 <;> rw [h1] <;> rfl

/-- Responses of the C9 witness pass: a 429 with Retry-After 3 on the first
order, a PROCESSED decision worth 7 points on the second. -/
def c9resp : Nat → FetchResult :=
  fun i => if i = 0 then FetchResult.tooManyRequests (some 3)
           else FetchResult.ok "PROCESSED" 7

theorem C9_retry_after_default_lost_witness :
    processOrders dbTwo false c9resp (fun _ => noFaults) defTimeToReturn =
      (runSteps dbTwo (getWaitingOrders dbTwo) c9resp (fun _ => noFaults) 0,
        defTimeToReturn) ∧
    (runSteps dbTwo (getWaitingOrders dbTwo) c9resp (fun _ => noFaults) 0).users =
      [⟨1, "alice", 7⟩] := by
  constructor
  · refine C9_retry_after_default_lost dbTwo c9resp (fun _ => noFaults) ?_
    intro j hj ra hr
    match j with
    | 0 =>
      simp only [c9resp, if_pos rfl] at hr
      cases hr
      exact Or.inl rfl
    | j + 1 =>
      simp only [c9resp] at hr
      cases hr
  · norm_num [dbTwo, alice, orderA, orderB, c9resp, runSteps, fetchOrderInfo,
      getWaitingOrders, updateOrder, updateUser, getUserByUserID, noFaults,
      defTimeToReturn]

/-- C5: the waiting-orders query selects exactly the orders whose status is
REGISTERED, PROCESSING or NEW; an order in a terminal status (PROCESSED or
INVALID) is never selected, and (when order ids are unique, as gorm primary
keys are) a reconciliation pass leaves its row — status and stored points —
unchanged, and leaves the set of order ids unchanged, so no later pass can
touch it either. -/
theorem C5_terminal_stability (db : DBState) (o : DbOrder)
    (hmem : o ∈ db.orders)
    (hterm : o.status = "PROCESSED" ∨ o.status = "INVALID") :
    o ∉ getWaitingOrders db ∧
    (∀ o' : DbOrder, o' ∈ getWaitingOrders db ↔ o' ∈ db.orders ∧
      (o'.status = "REGISTERED" ∨ o'.status = "PROCESSING" ∨
        o'.status = "NEW")) ∧
    ((db.orders.map DbOrder.id).Nodup →
      ∀ (lff : Bool) (resp : Nat → FetchResult) (faults : Nat → StoreFaults),
        o ∈ (processOrders db lff resp faults defTimeToReturn).1.orders ∧
        (processOrders db lff resp faults defTimeToReturn).1.orders.map
          DbOrder.id = db.orders.map DbOrder.id) := by
  have hp : (o.status == "REGISTERED" || o.status == "PROCESSING" ||
      o.status == "NEW") = false := by
    rcases hterm with h | h <;> rw [h] <;> rfl
  refine ⟨?_, ?_, ?_⟩
  · intro hin
    have := (List.mem_filter.mp hin).2
    rw [hp] at this
    exact Bool.false_ne_true this
  · intro o'
    simp [getWaitingOrders, List.mem_filter, or_assoc]
  · intro hnd lff resp faults
    refine ⟨processOrders_preserves db lff resp faults o hmem
      (terminal_id_not_waiting db o hnd hmem hp), processOrders_orders_map_id db lff resp faults⟩

theorem C5_terminal_stability_witness :
    orderDone ∉ getWaitingOrders dbDone ∧
    orderDone ∈ (processOrders dbDone false (fun _ => FetchResult.noContent)
      (fun _ => noFaults) defTimeToReturn).1.orders :=
  ⟨(C5_terminal_stability dbDone orderDone (by decide) (Or.inl rfl)).1,
    ((C5_terminal_stability dbDone orderDone (by decide) (Or.inl rfl)).2.2
      (by decide) false (fun _ => FetchResult.noContent) (fun _ => noFaults)).1⟩

/-- Responses of the C2 counterexample pass: a 429 with Retry-After 3 on the
first order, a PROCESSED decision worth 5 points on the second. -/
def c2resp : Nat → FetchResult :=
  fun i => if i = 0 then FetchResult.tooManyRequests (some 3)
           else FetchResult.ok "PROCESSED" 5

/-- C2 is false as stated: when the accrual service answers the first of two
waiting orders with 429 and Retry-After 3 (equal to the default wait), the
pass is not aborted — the second order is still polled and its update and the
balance credit are applied, contradicting that no order after the
rate-limited one is polled and that unvisited orders stay unchanged. -/
theorem C2_counterexample :
    processOrders dbTwo false c2resp (fun _ => noFaults) defTimeToReturn =
      (⟨[⟨1, "alice", 5⟩], [orderA, ⟨2, "11111115", "PROCESSED", 5, 1⟩], []⟩,
        3) := by
  norm_num [dbTwo, alice, orderA, orderB, c2resp, processOrders,
    processOrdersLoop, fetchOrderInfo, getWaitingOrders, updateOrder,
    updateUser, getUserByUserID, noFaults, defTimeToReturn]

/-- C2 (amended): when the accrual service answers the order at position k of
the pass with a rate-limit signal whose Retry-After parses to a value
different from the default wait, and no earlier step reported a non-default
wait, then the pass stops at k: the final store is exactly the one reached by
the first k steps (earlier updates persist, the rate-limited step writes
nothing), the orders from position k on keep their rows unchanged, and the
returned wait is the requested one. -/
theorem C2_rate_limit_abort (db : DBState) (resp : Nat → FetchResult)
    (faults : Nat → StoreFaults) (k w : Nat)
    (hnd : (db.orders.map DbOrder.id).Nodup)
    (hk : k < (getWaitingOrders db).length)
    (hr : resp k = FetchResult.tooManyRequests (some w))
    (hw : w ≠ defTimeToReturn)
    (hpre : ∀ j, j < k → fetchWait (resp j) defTimeToReturn = defTimeToReturn) :
    processOrders db false resp faults defTimeToReturn =
      (runSteps db ((getWaitingOrders db).take k) resp faults 0, w) ∧
    ∀ o ∈ (getWaitingOrders db).drop k,
      o ∈ (processOrders db false resp faults defTimeToReturn).1.orders := by
  have habort : processOrdersLoop db (getWaitingOrders db) resp faults 0
      defTimeToReturn =
      (runSteps db ((getWaitingOrders db).take k) resp faults 0, w) :=
    processOrdersLoop_abort resp faults _ k db 0 w hk (by simpa using hpre)
      (by simpa using hr) hw
  have hmain : processOrders db false resp faults defTimeToReturn =
      (runSteps db ((getWaitingOrders db).take k) resp faults 0, w) := by
    simpa [processOrders] using habort
  refine ⟨hmain, ?_⟩
  intro o ho
  have hmemw : o ∈ getWaitingOrders db := List.mem_of_mem_drop ho
  have hmemdb : o ∈ db.orders := (List.mem_filter.mp hmemw).1
  have hndw : ((getWaitingOrders db).map DbOrder.id).Nodup :=
    List.Nodup.sublist (List.Sublist.map _ (List.filter_sublist _)) hnd
  have hdropid : o.id ∈ ((getWaitingOrders db).map DbOrder.id).drop k := by
    rw [← List.map_drop]
    exact List.mem_map_of_mem _ ho
  have hid : o.id ∉ ((getWaitingOrders db).take k).map DbOrder.id := by
    intro hcon
    rw [List.map_take] at hcon
    exact List.disjoint_take_drop hndw (le_refl k) hcon hdropid
  rw [hmain]
  exact runSteps_preserves resp faults _ db 0 o hmemdb hid

/-- Responses of the C2 witness pass: a PROCESSED decision on the first
order, then a 429 with Retry-After 60 on the second of three orders. -/
def c2wresp : Nat → FetchResult :=
  fun i => if i = 0 then FetchResult.ok "PROCESSED" 5
           else FetchResult.tooManyRequests (some 60)

theorem C2_rate_limit_abort_witness :
    processOrders dbTwo false c2wresp (fun _ => noFaults) defTimeToReturn =
      (runSteps dbTwo ((getWaitingOrders dbTwo).take 1) c2wresp
        (fun _ => noFaults) 0, 60) :=
  (C2_rate_limit_abort dbTwo c2wresp (fun _ => noFaults) 1 60 (by decide)
    (by decide) rfl (by decide) (by decide)).1

/-- C3 is false as stated: a decision with a non-terminal status and a
positive accrual is credited on every pass that receives it. After two passes
in which the accrual service answers the same order with status PROCESSING
and accrual 500, the owner's balance is 1000, not 500, and after the first
pass the order is still in the polling set. -/
theorem C3_counterexample :
    (processOrders (processOrders dbOne false (fun _ => FetchResult.ok "PROCESSING" 500)
        (fun _ => noFaults) defTimeToReturn).1 false
        (fun _ => FetchResult.ok "PROCESSING" 500)
        (fun _ => noFaults) defTimeToReturn).1.users = [⟨1, "alice", 1000⟩] ∧
    (⟨1, "3182649", "PROCESSING", 500, 1⟩ : DbOrder) ∈
      getWaitingOrders (processOrders dbOne false
        (fun _ => FetchResult.ok "PROCESSING" 500)
        (fun _ => noFaults) defTimeToReturn).1 := by
  constructor <;>
    norm_num [dbOne, alice, orderA, processOrders, processOrdersLoop,
      fetchOrderInfo, getWaitingOrders, updateOrder, updateUser,
      getUserByUserID, noFaults, defTimeToReturn]

/-- C3 (amended): a successfully applied accrual decision whose status is
terminal (PROCESSED or INVALID) and whose accrual is positive credits the
owner's balance exactly once: the application performs one balance increment
by the accrual, the written terminal status takes the order out of the
waiting set, and any subsequent reconciliation pass leaves the credited
order's row unchanged, so that poll result is never re-applied. A decision
with a non-terminal status and positive accrual, by contrast, is re-credited
on later passes. -/
theorem C3_terminal_credit_once (db : DBState) (ord : DbOrder) (status : String)
    (accrual : ℚ) (u : User)
    (hmem : ord ∈ db.orders)
    (hterm : status = "PROCESSED" ∨ status = "INVALID")
    (hacc : 0 < accrual)
    (hu : getUserByUserID db ord.userID = some u) :
    fetchOrderInfo db ord (FetchResult.ok status accrual) noFaults
        defTimeToReturn =
      (updateUser (updateOrder db { ord with status := status, points := accrual })
        { u with balance := u.balance + accrual }, defTimeToReturn, false) ∧
    (∀ o ∈ getWaitingOrders
        (fetchOrderInfo db ord (FetchResult.ok status accrual) noFaults
          defTimeToReturn).1,
      o.id ≠ ord.id) ∧
    (∀ (lff : Bool) (resp2 : Nat → FetchResult) (faults2 : Nat → StoreFaults),
      ({ ord with status := status, points := accrual } : DbOrder) ∈
        (processOrders
          (fetchOrderInfo db ord (FetchResult.ok status accrual) noFaults
            defTimeToReturn).1
          lff resp2 faults2 defTimeToReturn).1.orders) := by
  have hu1 : getUserByUserID
      (updateOrder db { ord with status := status, points := accrual })
      ord.userID = some u := hu
  have h1 : fetchOrderInfo db ord (FetchResult.ok status accrual) noFaults
      defTimeToReturn =
      (updateUser (updateOrder db { ord with status := status, points := accrual })
        { u with balance := u.balance + accrual }, defTimeToReturn, false) := by
    simp only [fetchOrderInfo, noFaults, Bool.false_eq_true, if_false,
      gt_iff_lt, hacc, if_true, hu1]
  have hpfalse : (status == "REGISTERED" || status == "PROCESSING" ||
      status == "NEW") = false := by
    rcases hterm with h | h <;> rw [h] <;> rfl
  have h2 : ∀ o ∈ getWaitingOrders
      (fetchOrderInfo db ord (FetchResult.ok status accrual) noFaults
        defTimeToReturn).1, o.id ≠ ord.id := by
    intro o ho heq
    rw [h1] at ho
    have hmemud := (List.mem_filter.mp ho).1
    have hpass := (List.mem_filter.mp ho).2
    simp only [updateUser, updateOrder, List.mem_map] at hmemud
    rcases hmemud with ⟨x, _, hx⟩
    by_cases hxid : x.id = ord.id
    · rw [if_pos hxid] at hx
      rw [← hx] at hpass
      simp only at hpass
      rw [hpfalse] at hpass
      exact Bool.false_ne_true hpass
    · rw [if_neg hxid] at hx
      rw [← hx] at heq
      exact hxid heq
  refine ⟨h1, h2, ?_⟩
  intro lff resp2 faults2
  have hmemnew : ({ ord with status := status, points := accrual } : DbOrder) ∈
      (fetchOrderInfo db ord (FetchResult.ok status accrual) noFaults
        defTimeToReturn).1.orders := by
    rw [h1]
    simp only [updateUser, updateOrder]
    exact List.mem_map.mpr ⟨ord, hmem, by simp⟩
  refine processOrders_preserves _ lff resp2 faults2 _ hmemnew ?_
  intro hin
  rcases List.mem_map.mp hin with ⟨o', ho'mem, ho'id⟩
  exact h2 o' ho'mem ho'id

theorem C3_terminal_credit_once_witness :
    fetchOrderInfo dbOne orderA (FetchResult.ok "PROCESSED" 500) noFaults
        defTimeToReturn =
      (updateUser (updateOrder dbOne
          { orderA with status := "PROCESSED", points := 500 })
        { alice with balance := alice.balance + 500 }, defTimeToReturn, false) :=
  (C3_terminal_credit_once dbOne orderA "PROCESSED" 500 alice (by decide)
    (Or.inl rfl) (by decide) (by decide)).1

/-- C4 is false as stated: the reconciliation credit is not wrapped in a
transaction. With one user at balance 0 and one waiting order, a PROCESSED
decision worth 500 points whose balance save fails leaves the order update
committed (status PROCESSED, points 500) while the user's balance stays 0 —
the order update commits while the matching balance update is lost. -/
theorem C4_counterexample :
    fetchOrderInfo dbOne orderA (FetchResult.ok "PROCESSED" 500)
        ⟨false, false, true⟩ defTimeToReturn =
      (⟨[alice], [⟨1, "3182649", "PROCESSED", 500, 1⟩], []⟩, 3, true) := by
  decide

/-- C4 (amended): the withdrawal is executed in a single transaction — any
failing step rolls back every write, leaving the store exactly as at tx
begin — but the reconciliation credit is not: the order save and the balance
save are separate store calls, and when the balance save fails the order
update stays committed while every user row is unchanged. -/
theorem C4_withdraw_tx_vs_credit :
    (∀ (db : DBState) (order : DbOrder) (wd : Withdrawal) (email : String)
        (sum : ℚ) (f : WithdrawFaults),
      (withdrawalTransaction db order wd email sum f).2 ≠ none →
      (withdrawalTransaction db order wd email sum f).1 = db) ∧
    (∀ (db : DBState) (ord : DbOrder) (status : String) (accrual : ℚ),
      0 < accrual →
      (fetchOrderInfo db ord (FetchResult.ok status accrual)
          ⟨false, false, true⟩ defTimeToReturn).1.orders =
        (updateOrder db { ord with status := status, points := accrual }).orders ∧
      (fetchOrderInfo db ord (FetchResult.ok status accrual)
          ⟨false, false, true⟩ defTimeToReturn).1.users = db.users) := by
  constructor
  · intro db order wd email sum f h
    simp only [withdrawalTransaction] at h ⊢
    by_cases h1 : f.findUserFails
    · simp [h1]
    · simp only [h1, Bool.false_eq_true, if_false] at h ⊢
      cases hu : getUserByEmail db email with
      | none => simp
      | some u =>
        simp only [hu] at h ⊢
        by_cases hb : u.balance < sum
        · simp [hb]
        · simp only [hb, if_false] at h ⊢
          by_cases h2 : f.createOrderFails
          · simp [h2]
          · simp only [h2, Bool.false_eq_true, if_false] at h ⊢
            by_cases h3 : f.createWithdrawalFails
            · simp [h3]
            · simp only [h3, Bool.false_eq_true, if_false] at h ⊢
              by_cases h4 : f.saveUserFails
              · simp [h4]
              · simp only [h4, Bool.false_eq_true, if_false] at h
                exact absurd rfl h
  · intro db ord status accrual hacc
    simp only [fetchOrderInfo, Bool.false_eq_true, if_false, gt_iff_lt, hacc,
      if_true]
    cases hu : getUserByUserID
        (updateOrder db { ord with status := status, points := accrual })
        ord.userID with
    | none => exact ⟨rfl, rfl⟩
    | some u => exact ⟨rfl, rfl⟩

theorem C4_witness :
    (withdrawalTransaction dbOne
        ⟨2, "W1", "PROCESSED", 0, 1⟩ ⟨1, 150, 1, "W1"⟩ "alice" 150
        noWithdrawFaults).1 = dbOne ∧
    (fetchOrderInfo dbOne orderA (FetchResult.ok "PROCESSED" 500)
        ⟨false, false, true⟩ defTimeToReturn).1.users = dbOne.users :=
  ⟨C4_withdraw_tx_vs_credit.1 dbOne ⟨2, "W1", "PROCESSED", 0, 1⟩
      ⟨1, 150, 1, "W1"⟩ "alice" 150 noWithdrawFaults (by decide),
    (C4_withdraw_tx_vs_credit.2 dbOne orderA "PROCESSED" 500 (by decide)).2⟩

/-- C1: the withdrawal path is atomic over its three writes — on any error
the store is exactly as at tx begin, and on success it is exactly the state
with the PROCESSED withdrawal-settling order created, the withdrawal record
appended and the user saved with the balance decremented by the requested
sum — and when the balance re-read inside the transaction is below the
requested sum, the result is the unchanged store with the insufficient-funds
error, which WithdrawLogic maps to HTTP 402. -/
theorem C1_withdrawal (db : DBState) (uid : Nat) (email : String)
    (req : WithdrawRequest) (f : WithdrawFaults) :
    ((withdrawLogic db uid email req f).2.2 ≠ none →
      (withdrawLogic db uid email req f).1 = db) ∧
    ((withdrawLogic db uid email req f).2.2 = none →
      (withdrawLogic db uid email req f).1 =
        withdrawCommitted db uid email req) ∧
    (∀ u, f.findUserFails = false → getUserByEmail db email = some u →
      u.balance < req.sum →
      withdrawLogic db uid email req f =
        (db, 402, some TxError.insufficientFunds)) := by
  have hc3 : ∀ u, f.findUserFails = false → getUserByEmail db email = some u →
      u.balance < req.sum →
      withdrawLogic db uid email req f =
        (db, 402, some TxError.insufficientFunds) := by
    intro u hff hu hb
    simp only [withdrawLogic, withdrawalTransaction, hff, hu, hb,
      Bool.false_eq_true, if_false, if_true]
  refine ⟨?_, ?_, hc3⟩ <;>
  · simp only [withdrawLogic, withdrawalTransaction, withdrawCommitted]
    by_cases h1 : f.findUserFails
    · simp [h1]
    · simp only [h1, Bool.false_eq_true, if_false]
      cases hu : getUserByEmail db email with
      | none => simp
      | some u =>
        by_cases hb : u.balance < req.sum
        · simp [hb]
        · simp only [hb, if_false]
          by_cases h2 : f.createOrderFails
          · simp [h2]
          · simp only [h2, Bool.false_eq_true, if_false]
            by_cases h3 : f.createWithdrawalFails
            · simp [h3]
            · simp only [h3, Bool.false_eq_true, if_false]
              by_cases h4 : f.saveUserFails
              · simp [h4]
              · simp [h4]

theorem C1_withdrawal_witness :
    withdrawLogic dbOne 1 "alice" ⟨"W1", 150⟩ noWithdrawFaults =
      (dbOne, 402, some TxError.insufficientFunds) :=
  (C1_withdrawal dbOne 1 "alice" ⟨"W1", 150⟩ noWithdrawFaults).2.2 alice rfl
    (by decide) (by decide)

/-- C7: order intake rejects a number failing the checksum with 422 and
creates nothing; a duplicate for the same user yields 200 with no new record;
a duplicate for another user yields 409 leaving the store unchanged; and
otherwise exactly one new order in status NEW owned by the caller is appended
and the result is 202. -/
theorem C7_load_order (db : DBState) (uid : Nat) (number : String) :
    (isValidLuhn number = false → loadOrderHandler db uid number = (db, 422)) ∧
    (∀ o, isValidLuhn number = true → getOrderByNumber db number = some o →
      o.userID = uid → loadOrderHandler db uid number = (db, 200)) ∧
    (∀ o, isValidLuhn number = true → getOrderByNumber db number = some o →
      o.userID ≠ uid → loadOrderHandler db uid number = (db, 409)) ∧
    (isValidLuhn number = true → getOrderByNumber db number = none →
      loadOrderHandler db uid number =
        (addOrder db
          { id := freshOrderId db, number := number, status := "NEW",
            points := 0, userID := uid }, 202)) := by
  refine ⟨?_, ?_, ?_, ?_⟩
  · intro h
    simp [loadOrderHandler, loadOrderLogic, h]
  · intro o hl ho huid
    simp [loadOrderHandler, loadOrderLogic, hl, ho, huid]
  · intro o hl ho huid
    simp [loadOrderHandler, loadOrderLogic, hl, ho, huid]
  · intro hl ho
    simp [loadOrderHandler, loadOrderLogic, hl, ho]

theorem C7_load_order_witness :
    loadOrderHandler dbOne 1 "3182649" = (dbOne, 200) ∧
    loadOrderHandler dbOne 2 "3182649" = (dbOne, 409) ∧
    loadOrderHandler dbOne 1 "11111111" = (dbOne, 422) ∧
    loadOrderHandler dbOne 1 "79927398713" =
      (addOrder dbOne ⟨2, "79927398713", "NEW", 0, 1⟩, 202) :=
  ⟨(C7_load_order dbOne 1 "3182649").2.1 orderA (by decide) (by decide) rfl,
    (C7_load_order dbOne 2 "3182649").2.2.1 orderA (by decide) (by decide)
      (by decide),
    (C7_load_order dbOne 1 "11111111").1 (by decide),
    (C7_load_order dbOne 1 "79927398713").2.2.2 (by decide) (by decide)⟩

end GoDipl2
